import Mathlib

/-!
Shallow embedding of the GdogTAK decoding pipeline.

Part 1 embeds `scripts/bridge.py`: protobuf varint decoding, zig-zag sign
recovery, Garmin semicircle conversion, and the BLE notification coordinate
scanner `parse_ble_notification`.

Part 2 embeds `tools/btsnoop_compare.py`: the btsnoop capture reader
`parse_btsnoop`, session segmentation `detect_sessions`, and the fragment
header / command classifier `extract_command` with its label table
`CMD_LABELS`.

Byte strings are modelled as `List Nat` (each element a byte value `< 256`);
Python's arbitrary-precision integers are `Nat`/`Int`; Python floats produced
by `semicircles_to_degrees` are modelled exactly as rationals `ℚ` (every
operation the source performs on them -- one multiplication by the dyadic
constant `180 / 2^31` and order comparisons against small integers -- is
exact at every input the comparisons can distinguish).
-/

namespace GdogTAK

/-! ### bridge.py : varint / zigzag / semicircle decoding -/

/-- `DEVICE_COLLAR = 0x35` (device marker constant in bridge.py). -/
def DEVICE_COLLAR : Nat := 0x35

/-- Loop body of `decode_varint`: walks the byte list starting at the current
offset (`bytes` is the suffix of the data from the offset on), accumulating
`result` with 7-bit groups shifted by `shift`, counting `consumed`, stopping
at a byte with bit 7 clear or at the end of the buffer. -/
def decode_varint_go : List Nat → Nat → Nat → Nat → Nat × Nat
  | [], result, _, consumed => (result, consumed)
  | b :: rest, result, shift, consumed =>
    let result := result ||| ((b &&& 0x7F) <<< shift)
    let consumed := consumed + 1
    if b &&& 0x80 = 0 then (result, consumed)
    else decode_varint_go rest result (shift + 7) consumed

/-- `decode_varint(data, offset)` from bridge.py: decode a protobuf varint,
returning `(value, bytes_consumed)`.  The Python `while offset + consumed <
len(data)` loop is exactly a walk over `data.drop offset`. -/
def decode_varint (data : List Nat) (offset : Nat) : Nat × Nat :=
  decode_varint_go (data.drop offset) 0 0 0

/-- `decode_sint32(varint)` from bridge.py: ZigZag decode,
`(varint >> 1) ^ -(varint & 1)` with Python's arbitrary-precision two's
complement semantics, which `Int.xor` shares. -/
def decode_sint32 (varint : Nat) : Int :=
  Int.xor ((varint >>> 1 : Nat) : Int) (-((varint &&& 1 : Nat) : Int))

/-- `semicircles_to_degrees(sc)` from bridge.py: `sc * (180.0 / 2147483648.0)`.
The constant `180 / 2^31 = 45 * 2^-29` is a dyadic rational, exactly
representable as a double, so the model is the exact rational value. -/
def semicircles_to_degrees (sc : Int) : ℚ :=
  sc * (180 / 2147483648)

/-- `DogPosition` dataclass from bridge.py (the optional altitude / speed /
heading fields are never set by the parser and are omitted). -/
structure DogPosition where
  lat : ℚ
  lon : ℚ
  timestamp : Nat
  deriving Repr, DecidableEq

/-- The collar-marker loop of `parse_ble_notification`:
`for i in range(min(len(data) - 3, 20)): if data[i] == 0x02 and
data[i+1] == DEVICE_COLLAR and data[i+2] == 0x01`. -/
def is_collar (data : List Nat) : Bool :=
  (List.range (min (data.length - 3) 20)).any fun i =>
    data.getD i 0 == 0x02 && data.getD (i+1) 0 == DEVICE_COLLAR &&
      data.getD (i+2) 0 == 0x01

/-- Body of the coordinate-block loop of `parse_ble_notification` at index
`j`, given that the marker matched there: decode the latitude varint, check
the `0x10` longitude marker, decode the longitude varint, convert both to
degrees and range-check them, then optionally decode a `0x18` timestamp.
Returns `none` where the Python body says `continue`. -/
def coord_block_at (data : List Nat) (j : Nat) : Option DogPosition :=
  let latPair := decode_varint data (j + 3)
  let lat_val := latPair.1
  let lat_len := latPair.2
  let lat_signed := decode_sint32 lat_val
  let lon_offset := j + 3 + lat_len
  if data.length ≤ lon_offset ∨ data.getD lon_offset 0 ≠ 0x10 then none
  else
    let lonPair := decode_varint data (lon_offset + 1)
    let lon_val := lonPair.1
    let lon_len := lonPair.2
    let lon_signed := decode_sint32 lon_val
    let lat_deg := semicircles_to_degrees lat_signed
    let lon_deg := semicircles_to_degrees lon_signed
    if ¬ (-90 ≤ lat_deg ∧ lat_deg ≤ 90 ∧ -180 ≤ lon_deg ∧ lon_deg ≤ 180) then
      none
    else
      let ts_offset := lon_offset + lon_len + 1
      let timestamp :=
        if ts_offset < data.length ∧ data.getD ts_offset 0 = 0x18 then
          (decode_varint data (ts_offset + 1)).1
        else 0
      some ⟨lat_deg, lon_deg, timestamp⟩

/-- Does the 3-byte coordinate marker `0A 0C 08` start at index `j`? -/
def marker_at (data : List Nat) (j : Nat) : Bool :=
  data.getD j 0 == 0x0A && data.getD (j+1) 0 == 0x0C && data.getD (j+2) 0 == 0x08

/-- The coordinate-block scan loop of `parse_ble_notification`:
`for j in range(len(data) - 15)`, starting at index `j` with
`fuel = (len(data) - 15) - j` iterations remaining. -/
def scan_coords (data : List Nat) (j : Nat) : Nat → Option DogPosition
  | 0 => none
  | fuel + 1 =>
    match if marker_at data j then coord_block_at data j else none with
    | some pos => some pos
    | none => scan_coords data (j + 1) fuel

/-- `parse_ble_notification(data)` from bridge.py. -/
def parse_ble_notification (data : List Nat) : Option DogPosition :=
  if data.length < 40 then none
  else if ¬ is_collar data then none
  else scan_coords data 0 (data.length - 15)

/-- Modelled from the spec (the encoder is not part of the repository; only
the decoder is): the groups-of-7-bits varint scheme, "7 data bits per byte,
low-order groups first, continuation bit 7 set on all but the last byte". -/
def encode_varint (v : Nat) : List Nat :=
  if h : v < 0x80 then [v]
  else (v % 0x80 + 0x80) :: encode_varint (v / 0x80)
  decreasing_by exact Nat.div_lt_self (by omega) (by omega)

/-- Modelled from the spec (the encoder is not part of the repository; only
the decoder is): zig-zag encoding of a signed integer, the standard
"mapping from signed integers to unsigned varints that keeps small-magnitude
values compact": `v ↦ 2v` for `v ≥ 0` and `v ↦ -2v - 1` for `v < 0`. -/
def encode_zigzag (v : Int) : Nat :=
  if 0 ≤ v then (2 * v).toNat else (-2 * v - 1).toNat

/-! ### btsnoop_compare.py : capture reader, sessions, command classifier -/

/-- `SESSION_GAP_SECONDS = 30` from btsnoop_compare.py. -/
def SESSION_GAP_SECONDS : Nat := 30

/-- The Garmin command type label table `CMD_LABELS` from btsnoop_compare.py,
as an association list from `(category, id)` byte pairs to labels. -/
def CMD_LABELS : List ((Nat × Nat) × String) := [
  ((0x02, 0x08), "POLL_CONFIG"),
  ((0x02, 0x09), "CONFIG"),
  ((0x02, 0x0A), "CONFIG_0A"),
  ((0x02, 0x0B), "CONFIG_0B"),
  ((0x02, 0x0C), "CONFIG_0C"),
  ((0x02, 0x0D), "CONFIG_0D"),
  ((0x02, 0x0E), "CONFIG_0E"),
  ((0x02, 0x10), "CMD_10"),
  ((0x02, 0x11), "COLLAR_SLOT"),
  ((0x02, 0x12), "CMD_12"),
  ((0x02, 0x13), "CMD_13"),
  ((0x02, 0x14), "CMD_14"),
  ((0x02, 0x15), "CMD_15"),
  ((0x02, 0x16), "CONFIG_16"),
  ((0x02, 0x17), "CMD_17"),
  ((0x02, 0x18), "CMD_18"),
  ((0x02, 0x19), "CMD_19"),
  ((0x02, 0x1A), "CMD_1A"),
  ((0x02, 0x1B), "CMD_1B"),
  ((0x02, 0x1C), "CMD_1C"),
  ((0x02, 0x1D), "POS_QUERY"),
  ((0x02, 0x1E), "CMD_1E"),
  ((0x02, 0x1F), "CMD_1F"),
  ((0x02, 0x20), "CMD_20"),
  ((0x02, 0x29), "RESP_29"),
  ((0x02, 0x2A), "CMD_2A"),
  ((0x02, 0x2B), "CMD_2B"),
  ((0x02, 0x2C), "CMD_2C"),
  ((0x02, 0x30), "CMD_30"),
  ((0x02, 0x31), "CMD_31"),
  ((0x02, 0x32), "CMD_32"),
  ((0x02, 0x33), "CMD_33"),
  ((0x02, 0x34), "CMD_34"),
  ((0x02, 0x35), "COLLAR_RELAY"),
  ((0x02, 0x36), "CMD_36"),
  ((0x02, 0x37), "CMD_37"),
  ((0x02, 0x38), "CMD_38"),
  ((0x02, 0x39), "CMD_39"),
  ((0x02, 0x3A), "CMD_3A"),
  ((0x02, 0x3B), "CMD_3B"),
  ((0x02, 0x3C), "POSITION_3C"),
  ((0x02, 0x3D), "CMD_3D"),
  ((0x02, 0x3E), "CMD_3E"),
  ((0x02, 0x40), "CMD_40"),
  ((0x02, 0x41), "CMD_41"),
  ((0x02, 0x42), "CMD_42"),
  ((0x02, 0x43), "CMD_43"),
  ((0x02, 0x44), "DEVICE_REG"),
  ((0x02, 0x45), "CMD_45"),
  ((0x02, 0x50), "CMD_50"),
  ((0x02, 0x51), "CMD_51"),
  ((0x02, 0x52), "DEVICE_LIST"),
  ((0x02, 0x53), "CMD_53"),
  ((0x02, 0x54), "CMD_54"),
  ((0x02, 0x55), "CMD_55"),
  ((0x02, 0x60), "CMD_60"),
  ((0x02, 0x70), "CMD_70"),
  ((0x02, 0x71), "CMD_71"),
  ((0x02, 0x72), "CMD_72"),
  ((0x02, 0x73), "CMD_73"),
  ((0x02, 0x74), "CMD_74"),
  ((0x02, 0x75), "CMD_75"),
  ((0x02, 0x76), "CMD_76"),
  ((0x02, 0x77), "CMD_77"),
  ((0x02, 0x78), "CMD_78"),
  ((0x02, 0x79), "CMD_79"),
  ((0x02, 0x7A), "POSITION_7A"),
  ((0x02, 0x7B), "CMD_7B"),
  ((0x00, 0x00), "KEEPALIVE"),
  ((0x01, 0x40), "HANDSHAKE")
]

/-- A packet record as built by `parse_btsnoop` (dict with keys `type`,
`ts_us`, `handle`, `opcode`, `data`, `is_received`, `raw_size`; the derived
`timestamp` datetime is `BTSNOOP_EPOCH + ts_us` microseconds and is not
modelled separately). -/
structure Packet where
  type : String
  ts_us : Nat
  handle : Nat
  opcode : Nat
  data : List Nat
  is_received : Bool
  raw_size : Nat
  deriving Repr, DecidableEq, Inhabited

/-- Big-endian 32-bit unsigned read (`struct.unpack('>I', ...)`). -/
def u32be (b : List Nat) : Nat :=
  b.getD 0 0 * 0x1000000 + b.getD 1 0 * 0x10000 + b.getD 2 0 * 0x100 + b.getD 3 0

/-- Big-endian 64-bit unsigned read (`struct.unpack('>Q', ...)`). -/
def u64be (b : List Nat) : Nat :=
  u32be (b.take 4) * 0x100000000 + u32be (b.drop 4)

/-- Little-endian 16-bit unsigned read (`struct.unpack('<H', ...)`). -/
def u16le (b : List Nat) : Nat :=
  b.getD 0 0 + b.getD 1 0 * 0x100

/-- Result of `parse_btsnoop`: the Python function prints an error message and
returns an empty packet list when the 16-byte file header is missing;
`header_error` records whether that diagnostic was emitted. -/
structure BtsnoopResult where
  header_error : Bool
  packets : List Packet
  deriving Repr, DecidableEq

/-- The record-reading loop of `parse_btsnoop`, operating on the bytes that
follow the 16-byte file header.  Each iteration reads a 24-byte record header
(`>IIII` + `>Q` big-endian), then `incl_len` bytes of frame data; a short
read of either terminates the loop.  ACL frames (`data[0] == 0x02`) on the
ATT channel (`CID 0x0004` at bytes 7:9 little-endian) with opcode
`0x12`/`0x52` (writes) or `0x1B` (notifications) become packets; everything
else is skipped. -/
def parse_records (bytes : List Nat) : List Packet :=
  if h : bytes.length < 24 then []
  else
    let rec_hdr := bytes.take 24
    let incl_len := u32be ((rec_hdr.drop 4).take 4)
    let flags := u32be ((rec_hdr.drop 8).take 4)
    let ts_us := u64be (rec_hdr.drop 16)
    let rest := bytes.drop 24
    if h2 : rest.length < incl_len then []
    else
      let data := rest.take incl_len
      let is_received := flags % 2 = 1
      let tail := parse_records (rest.drop incl_len)
      if data.length < 10 then tail
      else if data.getD 0 0 ≠ 0x02 then tail
      else if u16le ((data.drop 7).take 2) ≠ 0x0004 then tail
      else
        let att_opcode := data.getD 9 0
        if att_opcode = 0x12 ∨ att_opcode = 0x52 then
          if data.length < 12 then tail
          else
            { type := "write", ts_us := ts_us,
              handle := u16le ((data.drop 10).take 2), opcode := att_opcode,
              data := data.drop 12, is_received := is_received,
              raw_size := (data.drop 12).length } :: tail
        else if att_opcode = 0x1B then
          if data.length < 12 then tail
          else
            { type := "notification", ts_us := ts_us,
              handle := u16le ((data.drop 10).take 2), opcode := att_opcode,
              data := data.drop 12, is_received := is_received,
              raw_size := (data.drop 12).length } :: tail
        else tail
termination_by bytes.length
decreasing_by simp only [List.length_drop]; omega

/-- `parse_btsnoop(filepath)` from btsnoop_compare.py, over the file's bytes:
a file shorter than the 16-byte header yields the "File too short for
header" diagnostic and no packets; otherwise the record loop runs on the
remaining bytes. -/
def parse_btsnoop (file : List Nat) : BtsnoopResult :=
  if (file.take 16).length < 16 then ⟨true, []⟩
  else ⟨false, parse_records (file.drop 16)⟩

/-- The session-gap test of `detect_sessions`:
`(packets[i]['ts_us'] - packets[i-1]['ts_us']) / 1_000_000.0 >
SESSION_GAP_SECONDS`, with the float quotient modelled as the exact rational
(the comparison against 30 gives the same verdict: IEEE division rounds to
nearest and `30` is representable, so the rounded quotient is `> 30` exactly
when the real quotient is). -/
def gap_over (prev cur : Nat) : Bool :=
  decide ((((cur : ℤ) - (prev : ℤ) : ℤ) : ℚ) / 1000000 > (SESSION_GAP_SECONDS : ℚ))

/-- Loop of `detect_sessions`: `prev` is packet `i - 1`'s timestamp, `rest`
holds the timestamps of packets `i, i+1, ...`, and `session_start` is the
index the current session began at. -/
def detect_sessions_go (prev : Nat) (rest : List Nat)
    (session_start i : Nat) : List (Nat × Nat) :=
  match rest with
  | [] => [(session_start, i - 1)]
  | cur :: rest' =>
    if gap_over prev cur then
      (session_start, i - 1) :: detect_sessions_go cur rest' i (i + 1)
    else detect_sessions_go cur rest' session_start (i + 1)

/-- `detect_sessions(packets)` from btsnoop_compare.py: detect sessions by
`> 30` second gaps, returning a list of `(start_idx, end_idx)` tuples. -/
def detect_sessions (packets : List Packet) : List (Nat × Nat) :=
  match packets.map Packet.ts_us with
  | [] => []
  | t :: rest => detect_sessions_go t rest 0 1

/-- Does some session range of `ss` contain both indices `i` and `j`? -/
def same_session (ss : List (Nat × Nat)) (i j : Nat) : Bool :=
  ss.any fun se => se.1 ≤ i && i ≤ se.2 && se.1 ≤ j && j ≤ se.2

/-- Uppercase hexadecimal digit, as Python's `"%X"` formatting produces. -/
def hexDigitChar (n : Nat) : Char :=
  if n < 10 then Char.ofNat (48 + n) else Char.ofNat (55 + n)

/-- Python's `f"{b:02X}"` formatting for a byte value `b < 256`. -/
def hex2 (n : Nat) : String :=
  String.mk [hexDigitChar (n / 16 % 16), hexDigitChar (n % 16)]

/-- The 4-tuple returned by `extract_command`:
`(label, is_continuation_frag, cmd_tuple_or_none, frag_info_str)`. -/
structure CmdInfo where
  label : String
  is_cont : Bool
  cmd : Option (Nat × Nat)
  frag_info : String
  deriving Repr, DecidableEq

/-- `extract_command(data)` from btsnoop_compare.py: classify a packet
payload from its 2-byte fragment header and, for command-start payloads
(first payload byte `0x00` with at least two more bytes), the
`(category, id)` pair looked up in `CMD_LABELS` with a
`CMD_<cat>_<id>` hex fallback. -/
def extract_command (data : List Nat) : CmdInfo :=
  if data.length < 2 then ⟨"TOO_SHORT", false, none, ""⟩
  else
    let first_byte := data.getD 0 0
    let second_byte := data.getD 1 0
    let is_high_bit := first_byte &&& 0x80 ≠ 0
    let frag_str := "[0x" ++ hex2 first_byte ++ " 0x" ++ hex2 second_byte ++ "]"
    let payload := data.drop 2
    if payload.length = 0 then ⟨"EMPTY_HDR", false, none, frag_str⟩
    else if payload.getD 0 0 = 0x00 ∧ 3 ≤ payload.length then
      let cmd_cat := payload.getD 1 0
      let cmd_id := payload.getD 2 0
      let label := ((CMD_LABELS.lookup (cmd_cat, cmd_id)).getD
        ("CMD_" ++ hex2 cmd_cat ++ "_" ++ hex2 cmd_id))
      let label := if is_high_bit then "FRAG>" ++ label else label
      ⟨label, false, some (cmd_cat, cmd_id), frag_str⟩
    else if is_high_bit then
      ⟨"FRAG_DATA[0x" ++ hex2 (payload.getD 0 0) ++ "]", true, none, frag_str⟩
    else
      ⟨"DATA[0x" ++ hex2 (payload.getD 0 0) ++ "]", false, none, frag_str⟩

/-! ### Auxiliary definitions used by the statements -/

/-- Is the coordinate-block candidate at index `j` accepted by the scan loop:
the `0A 0C 08` marker matches there, the `0x10` longitude marker follows the
latitude varint, and the decoded degrees pass the range check.  `true`
exactly when the loop body at `j` returns instead of continuing. -/
def coord_candidate_valid (data : List Nat) (j : Nat) : Bool :=
  marker_at data j && (coord_block_at data j).isSome

/-- Does the collar marker `02 35 01` start at index `i`? (The condition
tested by the collar loop of `parse_ble_notification`.) -/
def collar_marker_at (data : List Nat) (i : Nat) : Bool :=
  data.getD i 0 == 0x02 && data.getD (i+1) 0 == DEVICE_COLLAR &&
    data.getD (i+2) 0 == 0x01

/-- Does the session index range `se` contain packet index `k`? -/
def contains_idx (se : Nat × Nat) (k : Nat) : Bool :=
  se.1 ≤ k && k ≤ se.2

/-- A notification packet with timestamp `t` (the only field
`detect_sessions` reads is `ts_us`). -/
def mk_packet (t : Nat) : Packet :=
  ⟨"notification", t, 0x0010, 0x1B, [], true, 0⟩

/-- The four packets of the session-segmentation example: timestamps
`[0, 1_000_000, 40_000_000, 41_000_000]` microseconds. -/
def c3_packets : List Packet :=
  [mk_packet 0, mk_packet 1000000, mk_packet 40000000, mk_packet 41000000]

/-- A 39-byte payload: collar marker `02 35 01` at index 0 and a structurally
valid, in-range coordinate block (the first and only `0A 0C 08` occurrence)
at index 5 (`0A 0C 08 00 10 00`, latitude and longitude both 0), padded
with `0x01` bytes.  One byte short of the 40-byte minimum. -/
def c2_cex : List Nat :=
  [0x02, 0x35, 0x01, 0x01, 0x01,
   0x0A, 0x0C, 0x08, 0x00, 0x10, 0x00,
   0x01, 0x01, 0x01, 0x01, 0x01, 0x01, 0x01, 0x01, 0x01, 0x01,
   0x01, 0x01, 0x01, 0x01, 0x01, 0x01, 0x01, 0x01, 0x01, 0x01,
   0x01, 0x01, 0x01, 0x01, 0x01, 0x01, 0x01, 0x01]

/-- A 40-byte payload: collar marker at index 0, and a structurally valid,
in-range coordinate block whose `0A 0C 08` marker (the only occurrence)
begins exactly at index 25 = length - 15, padded with `0x01` bytes. -/
def c2_cex_late : List Nat :=
  [0x02, 0x35, 0x01, 0x01, 0x01, 0x01, 0x01, 0x01, 0x01, 0x01,
   0x01, 0x01, 0x01, 0x01, 0x01, 0x01, 0x01, 0x01, 0x01, 0x01,
   0x01, 0x01, 0x01, 0x01, 0x01,
   0x0A, 0x0C, 0x08, 0x00, 0x10, 0x00, 0x18, 0x07,
   0x01, 0x01, 0x01, 0x01, 0x01, 0x01, 0x01]

/-- Boolean mirror of `coord_block_at ... |>.isSome` with the degree range
check restated over the raw semicircle integers (`90° = 2^30` semicircles,
`180° = 2^31` semicircles), so concrete payloads can be checked by kernel
reduction; `coord_block_at_isSome` proves the two agree. -/
def coord_block_ok (data : List Nat) (j : Nat) : Bool :=
  let latPair := decode_varint data (j + 3)
  let lat_signed := decode_sint32 latPair.1
  let lon_offset := j + 3 + latPair.2
  if data.length ≤ lon_offset ∨ data.getD lon_offset 0 ≠ 0x10 then false
  else
    let lonPair := decode_varint data (lon_offset + 1)
    let lon_signed := decode_sint32 lonPair.1
    decide (-1073741824 ≤ lat_signed ∧ lat_signed ≤ 1073741824 ∧
      -2147483648 ≤ lon_signed ∧ lon_signed ≤ 2147483648)

/-- Boolean mirror of `coord_candidate_valid` using `coord_block_ok`;
`coord_candidate_valid_eq` proves the two agree. -/
def coord_candidate_valid_int (data : List Nat) (j : Nat) : Bool :=
  marker_at data j && coord_block_ok data j

/-! ### Helper lemmas -/

theorem gap_over_iff (a b : Nat) :
    gap_over a b = true ↔ (30000000 : ℤ) < (b : ℤ) - (a : ℤ) := by
  unfold gap_over SESSION_GAP_SECONDS
  rw [decide_eq_true_iff, gt_iff_lt, lt_div_iff₀ (by norm_num : (0:ℚ) < 1000000)]
  constructor
  · intro h
    exact_mod_cast (by push_cast at h ⊢; linarith :
      (30000000 : ℚ) < ((b : ℤ) : ℚ) - ((a : ℤ) : ℚ))
  · intro h
    have h2 : (30000000 : ℚ) < ((b : ℤ) : ℚ) - ((a : ℤ) : ℚ) := by exact_mod_cast h
    push_cast at h2 ⊢
    linarith

theorem gap_over_eq (a b : Nat) :
    gap_over a b = decide ((30000000 : ℤ) < (b : ℤ) - (a : ℤ)) := by
  rcases h : decide ((30000000 : ℤ) < (b : ℤ) - (a : ℤ)) with _ | _
  · rw [decide_eq_false_iff_not] at h
    rcases hg : gap_over a b with _ | _
    · rfl
    · exact absurd ((gap_over_iff a b).mp hg) h
  · exact (gap_over_iff a b).mpr (of_decide_eq_true h)

theorem lat_lo_iff (a : Int) :
    (-90 : ℚ) ≤ semicircles_to_degrees a ↔ -1073741824 ≤ a := by
  unfold semicircles_to_degrees
  rw [mul_div_assoc', le_div_iff₀ (by norm_num : (0:ℚ) < 2147483648)]
  constructor
  · intro h
    have h2 : (-1073741824 : ℚ) ≤ (a : ℚ) := by nlinarith
    exact_mod_cast h2
  · intro h
    have h2 : (-1073741824 : ℚ) ≤ (a : ℚ) := by exact_mod_cast h
    nlinarith

theorem lat_hi_iff (a : Int) :
    semicircles_to_degrees a ≤ 90 ↔ a ≤ 1073741824 := by
  unfold semicircles_to_degrees
  rw [mul_div_assoc', div_le_iff₀ (by norm_num : (0:ℚ) < 2147483648)]
  constructor
  · intro h
    have h2 : (a : ℚ) ≤ 1073741824 := by nlinarith
    exact_mod_cast h2
  · intro h
    have h2 : (a : ℚ) ≤ 1073741824 := by exact_mod_cast h
    nlinarith

theorem lon_lo_iff (a : Int) :
    (-180 : ℚ) ≤ semicircles_to_degrees a ↔ -2147483648 ≤ a := by
  unfold semicircles_to_degrees
  rw [mul_div_assoc', le_div_iff₀ (by norm_num : (0:ℚ) < 2147483648)]
  constructor
  · intro h
    have h2 : (-2147483648 : ℚ) ≤ (a : ℚ) := by nlinarith
    exact_mod_cast h2
  · intro h
    have h2 : (-2147483648 : ℚ) ≤ (a : ℚ) := by exact_mod_cast h
    nlinarith

theorem lon_hi_iff (a : Int) :
    semicircles_to_degrees a ≤ 180 ↔ a ≤ 2147483648 := by
  unfold semicircles_to_degrees
  rw [mul_div_assoc', div_le_iff₀ (by norm_num : (0:ℚ) < 2147483648)]
  constructor
  · intro h
    have h2 : (a : ℚ) ≤ 2147483648 := by nlinarith
    exact_mod_cast h2
  · intro h
    have h2 : (a : ℚ) ≤ 2147483648 := by exact_mod_cast h
    nlinarith

theorem coord_block_at_isSome (data : List Nat) (j : Nat) :
    (coord_block_at data j).isSome = coord_block_ok data j := by
  unfold coord_block_at coord_block_ok
  by_cases h1 : data.length ≤ j + 3 + (decode_varint data (j + 3)).2 ∨
      data.getD (j + 3 + (decode_varint data (j + 3)).2) 0 ≠ 0x10
  · simp only [if_pos h1, Option.isSome_none]
  · simp only [if_neg h1]
    set A := decode_sint32 (decode_varint data (j + 3)).1 with hA
    set B := decode_sint32 (decode_varint data
      (j + 3 + (decode_varint data (j + 3)).2 + 1)).1 with hB
    by_cases hq : (-90:ℚ) ≤ semicircles_to_degrees A ∧ semicircles_to_degrees A ≤ 90 ∧
        (-180:ℚ) ≤ semicircles_to_degrees B ∧ semicircles_to_degrees B ≤ 180
    · rw [if_neg (not_not_intro hq)]
      have hz : -1073741824 ≤ A ∧ A ≤ 1073741824 ∧
          -2147483648 ≤ B ∧ B ≤ 2147483648 :=
        ⟨(lat_lo_iff A).mp hq.1, (lat_hi_iff A).mp hq.2.1,
         (lon_lo_iff B).mp hq.2.2.1, (lon_hi_iff B).mp hq.2.2.2⟩
      simp [hz]
    · rw [if_pos hq]
      have hz : ¬ (-1073741824 ≤ A ∧ A ≤ 1073741824 ∧
          -2147483648 ≤ B ∧ B ≤ 2147483648) := by
        intro hz
        exact hq ⟨(lat_lo_iff A).mpr hz.1, (lat_hi_iff A).mpr hz.2.1,
          (lon_lo_iff B).mpr hz.2.2.1, (lon_hi_iff B).mpr hz.2.2.2⟩
      simp [hz]

theorem coord_candidate_valid_eq (data : List Nat) :
    coord_candidate_valid data = coord_candidate_valid_int data := by
  funext j
  unfold coord_candidate_valid coord_candidate_valid_int
  rw [coord_block_at_isSome]

theorem decode_sint32_eq (u : Nat) :
    decode_sint32 u =
      if u % 2 = 0 then ((u / 2 : Nat) : Int) else -((u / 2 : Nat) : Int) - 1 := by
  unfold decode_sint32
  rw [Nat.and_one_is_mod]
  have hs : u >>> 1 = u / 2 := by
    rw [Nat.shiftRight_eq_div_pow, pow_one]
  have hx0 : ∀ m : Nat, Int.xor (Int.ofNat m) (Int.ofNat 0) = Int.ofNat (m ^^^ 0) :=
    fun _ => rfl
  have hx1 : ∀ m : Nat, Int.xor (Int.ofNat m) (Int.negSucc 0) = Int.negSucc (m ^^^ 0) :=
    fun _ => rfl
  rcases Nat.mod_two_eq_zero_or_one u with h | h
  · rw [h, if_pos rfl, hs]
    show Int.xor (Int.ofNat (u / 2)) (Int.ofNat 0) = Int.ofNat (u / 2)
    rw [hx0, Nat.xor_zero]
  · rw [h, if_neg (by omega), hs]
    show Int.xor (Int.ofNat (u / 2)) (Int.negSucc 0) = -(Int.ofNat (u / 2)) - 1
    rw [hx1, Nat.xor_zero, Int.negSucc_eq]
    simp only [Int.ofNat_eq_natCast]
    omega

theorem or_shift_eq_add {r b s : Nat} (h : r < 2 ^ s) :
    r ||| (b <<< s) = r + b * 2 ^ s := by
  have h2 := Nat.mul_add_lt_is_or (b := r) (i := s) h b
  rw [Nat.shiftLeft_eq, Nat.or_comm, mul_comm b, ← h2, Nat.add_comm]

theorem and_127_eq (x : Nat) : x &&& 127 = x % 128 := by
  have := Nat.and_pow_two_sub_one_eq_mod x 7
  norm_num at this
  exact this

theorem and_128_eq_zero {x : Nat} (h : x % 256 < 128) : x &&& 128 = 0 := by
  have h2 : x &&& 128 = (Nat.testBit x 7).toNat * 2 ^ 7 := by
    have := Nat.and_two_pow x 7
    norm_num at this ⊢
    exact this
  rw [Nat.testBit_to_div_mod] at h2
  have h3 : x / 2 ^ 7 % 2 = 0 := by omega
  rw [h3] at h2
  simpa using h2

theorem and_128_ne_zero {x : Nat} (h : x % 256 ≥ 128) : x &&& 128 ≠ 0 := by
  have h2 : x &&& 128 = (Nat.testBit x 7).toNat * 2 ^ 7 := by
    have := Nat.and_two_pow x 7
    norm_num at this ⊢
    exact this
  rw [Nat.testBit_to_div_mod] at h2
  have h3 : x / 2 ^ 7 % 2 = 1 := by omega
  rw [h3] at h2
  simp at h2
  omega

theorem decode_encode_go (v : Nat) : ∀ r s c, r < 2 ^ s →
    decode_varint_go (encode_varint v) r s c =
      (r + v * 2 ^ s, c + (encode_varint v).length) := by
  induction v using Nat.strong_induction_on with
  | _ v ih =>
    intro r s c hr
    rw [encode_varint]
    by_cases h : v < 128
    · rw [dif_pos h]
      unfold decode_varint_go
      rw [and_127_eq, Nat.mod_eq_of_lt h,
        if_pos (and_128_eq_zero (by omega)), or_shift_eq_add hr]
      simp
    · rw [dif_neg h]
      unfold decode_varint_go
      rw [and_127_eq]
      have hm : (v % 128 + 128) % 128 = v % 128 := by omega
      rw [hm, if_neg (and_128_ne_zero (by omega)), or_shift_eq_add hr]
      have hlt : v / 128 < v := Nat.div_lt_self (by omega) (by omega)
      have hr' : r + v % 128 * 2 ^ s < 2 ^ (s + 7) := by
        have h1 : v % 128 * 2 ^ s ≤ 127 * 2 ^ s :=
          Nat.mul_le_mul_right _ (by omega)
        have h2 : 2 ^ (s + 7) = 2 ^ s * 128 := by rw [pow_add]; norm_num
        omega
      rw [ih (v / 128) hlt _ (s + 7) (c + 1) hr']
      have h2 : 2 ^ (s + 7) = 2 ^ s * 128 := by rw [pow_add]; norm_num
      have h3 : 128 * (v / 128) + v % 128 = v := Nat.div_add_mod v 128
      simp only [Prod.mk.injEq, List.length_cons]
      constructor
      · rw [h2]
        nlinarith [h3]
      · omega

theorem scan_coords_eq_find (data : List Nat) :
    ∀ fuel j, scan_coords data j fuel =
      ((List.range' j fuel).find? (coord_candidate_valid data)).bind
        (coord_block_at data) := by
  intro fuel
  induction fuel with
  | zero => intro j; simp [scan_coords]
  | succ n ihn =>
    intro j
    rw [List.range'_succ]
    by_cases hm : marker_at data j = true
    · cases hb : coord_block_at data j with
      | some pos =>
        have hv : coord_candidate_valid data j = true := by
          simp [coord_candidate_valid, hm, hb]
        rw [List.find?_cons_of_pos _ hv]
        simp [scan_coords, hm, hb]
      | none =>
        have hv : coord_candidate_valid data j = false := by
          simp [coord_candidate_valid, hm, hb]
        rw [List.find?_cons_of_neg _ (by simp [hv])]
        simp [scan_coords, hm, hb, ihn (j + 1)]
    · have hv : coord_candidate_valid data j = false := by
        simp [coord_candidate_valid, hm]
      rw [List.find?_cons_of_neg _ (by simp [hv])]
      have hm' : marker_at data j = false := by
        simpa using hm
      simp [scan_coords, hm', ihn (j + 1)]

theorem same_session_cons (se : Nat × Nat) (ss : List (Nat × Nat)) (a b : Nat) :
    same_session (se :: ss) a b
      = ((contains_idx se a && contains_idx se b) || same_session ss a b) := by
  rw [Bool.eq_iff_iff]
  simp only [same_session, contains_idx, List.any_cons, Bool.or_eq_true,
    Bool.and_eq_true, decide_eq_true_eq]
  tauto

theorem detect_go_count (rest : List Nat) : ∀ prev s i k, s < i →
    ((detect_sessions_go prev rest s i).countP fun se => contains_idx se k)
      = if s ≤ k ∧ k ≤ i - 1 + rest.length then 1 else 0 := by
  induction rest with
  | nil =>
    intro prev s i k hsi
    unfold detect_sessions_go
    simp only [List.countP_cons, List.countP_nil, contains_idx,
      Bool.and_eq_true, decide_eq_true_eq, List.length_nil]
    split_ifs <;> omega
  | cons cur rest' ihr =>
    intro prev s i k hsi
    unfold detect_sessions_go
    by_cases hg : gap_over prev cur = true
    · rw [if_pos hg, List.countP_cons, ihr cur i (i + 1) k (by omega)]
      simp only [contains_idx, Bool.and_eq_true, decide_eq_true_eq,
        List.length_cons]
      split_ifs <;> omega
    · rw [if_neg hg, ihr cur s (i + 1) k (by omega)]
      simp only [List.length_cons]
      split_ifs <;> omega

theorem detect_go_shape (rest : List Nat) : ∀ prev s i, s < i →
    (detect_sessions_go prev rest s i).head?.map Prod.fst = some s ∧
    (detect_sessions_go prev rest s i).getLast?.map Prod.snd
      = some (i - 1 + rest.length) ∧
    List.Chain' (fun a b => b.1 = a.2 + 1) (detect_sessions_go prev rest s i) ∧
    ∀ se ∈ detect_sessions_go prev rest s i, se.1 ≤ se.2 := by
  induction rest with
  | nil =>
    intro prev s i hsi
    refine ⟨rfl, by simp [detect_sessions_go], by simp [detect_sessions_go], ?_⟩
    intro se hse
    unfold detect_sessions_go at hse
    rw [List.mem_singleton] at hse
    subst hse
    simp
    omega
  | cons cur rest' ihr =>
    intro prev s i hsi
    unfold detect_sessions_go
    by_cases hg : gap_over prev cur = true
    · rw [if_pos hg]
      obtain ⟨ih1, ih2, ih3, ih4⟩ := ihr cur i (i + 1) (by omega)
      have hne : detect_sessions_go cur rest' i (i + 1) ≠ [] := by
        intro hnil
        rw [hnil] at ih1
        simp at ih1
      refine ⟨rfl, ?_, ?_, ?_⟩
      · rw [List.getLast?_cons]
        cases hL : (detect_sessions_go cur rest' i (i + 1)).getLast? with
        | none => rw [hL] at ih2; simp at ih2
        | some z =>
          rw [hL] at ih2
          simp only [Option.map_some', Option.some.injEq] at ih2
          simp only [Option.getD_some, Option.map_some', Option.some.injEq,
            List.length_cons]
          omega
      · rw [List.chain'_cons']
        refine ⟨?_, ih3⟩
        intro y hy
        cases hL : (detect_sessions_go cur rest' i (i + 1)).head? with
        | none => rw [hL] at hy; simp at hy
        | some z =>
          rw [hL] at ih1 hy
          simp only [Option.map_some', Option.some.injEq] at ih1
          simp only [Option.mem_def, Option.some.injEq] at hy
          subst hy
          show z.1 = i - 1 + 1
          omega
      · intro se hse
        rcases List.mem_cons.mp hse with h | h
        · subst h
          show s ≤ i - 1
          omega
        · exact ih4 se h
    · rw [if_neg hg]
      obtain ⟨ih1, ih2, ih3, ih4⟩ := ihr cur s (i + 1) (by omega)
      refine ⟨ih1, ?_, ih3, ih4⟩
      rw [ih2]
      simp only [List.length_cons, Option.some.injEq]
      omega

theorem detect_go_boundary (rest : List Nat) : ∀ prev s i k, s < i →
    (same_session (detect_sessions_go prev rest s i) k (k + 1) = true ↔
      (s ≤ k ∧ k + 1 < i + rest.length ∧
        (i ≤ k + 1 → gap_over ((prev :: rest).getD (k + 1 - i) 0)
            ((prev :: rest).getD (k + 2 - i) 0) = false))) := by
  induction rest with
  | nil =>
    intro prev s i k hsi
    unfold detect_sessions_go
    rw [same_session_cons]
    simp only [same_session, List.any_nil, Bool.or_false, Bool.and_eq_true,
      contains_idx, decide_eq_true_eq, List.length_nil]
    constructor
    · rintro ⟨⟨h1, h2⟩, h3, h4⟩
      exact ⟨by omega, by omega, fun hik => absurd hik (by omega)⟩
    · rintro ⟨h1, h2, h3⟩
      exact ⟨⟨by omega, by omega⟩, by omega, by omega⟩
  | cons cur rest' ihr =>
    intro prev s i k hsi
    unfold detect_sessions_go
    by_cases hg : gap_over prev cur = true
    · rw [if_pos hg, same_session_cons, Bool.or_eq_true, Bool.and_eq_true]
      simp only [contains_idx, Bool.and_eq_true, decide_eq_true_eq]
      rw [ihr cur i (i + 1) k (by omega)]
      constructor
      · rintro (⟨⟨h1, h2⟩, h3, h4⟩ | ⟨h1, h2, h3⟩)
        · refine ⟨h1, ?_, fun hik => absurd hik (by omega)⟩
          simp only [List.length_cons]
          omega
        · refine ⟨by omega, ?_, fun hik => ?_⟩
          · simp only [List.length_cons]
            omega
          · have e1 : k + 1 - i = (k - i) + 1 := by omega
            have e2 : k + 2 - i = (k + 1 - i) + 1 := by omega
            rw [e2, e1, List.getD_cons_succ, List.getD_cons_succ]
            have e3 : k + 1 - (i + 1) = k - i := by omega
            have e4 : k + 2 - (i + 1) = k - i + 1 := by omega
            rw [e3, e4] at h3
            exact h3 (by omega)
      · rintro ⟨h1, h2, h3⟩
        simp only [List.length_cons] at h2
        by_cases hk : k + 1 ≤ i - 1
        · exact Or.inl ⟨⟨h1, by omega⟩, by omega, hk⟩
        · by_cases hk2 : i ≤ k
          · refine Or.inr ⟨hk2, by omega, fun _ => ?_⟩
            have e3 : k + 1 - (i + 1) = k - i := by omega
            have e4 : k + 2 - (i + 1) = k - i + 1 := by omega
            rw [e3, e4]
            have e1 : k + 1 - i = (k - i) + 1 := by omega
            have e2 : k + 2 - i = (k + 1 - i) + 1 := by omega
            rw [e2, e1, List.getD_cons_succ, List.getD_cons_succ] at h3
            exact h3 (by omega)
          · exfalso
            have e0 : k + 1 - i = 0 := by omega
            have e1 : k + 2 - i = 1 := by omega
            rw [e0, e1, List.getD_cons_zero, List.getD_cons_succ,
              List.getD_cons_zero] at h3
            have hfalse := h3 (by omega)
            rw [hg] at hfalse
            simp at hfalse
    · rw [if_neg hg]
      rw [ihr cur s (i + 1) k (by omega)]
      constructor
      · rintro ⟨h1, h2, h3⟩
        refine ⟨h1, by simp only [List.length_cons]; omega, fun hik => ?_⟩
        by_cases hk : i ≤ k
        · have e1 : k + 1 - i = (k - i) + 1 := by omega
          have e2 : k + 2 - i = (k + 1 - i) + 1 := by omega
          rw [e2, e1, List.getD_cons_succ, List.getD_cons_succ]
          have e3 : k + 1 - (i + 1) = k - i := by omega
          have e4 : k + 2 - (i + 1) = k - i + 1 := by omega
          rw [e3, e4] at h3
          exact h3 (by omega)
        · have e0 : k + 1 - i = 0 := by omega
          have e1 : k + 2 - i = 1 := by omega
          rw [e0, e1, List.getD_cons_zero, List.getD_cons_succ,
            List.getD_cons_zero]
          simpa using hg
      · rintro ⟨h1, h2, h3⟩
        simp only [List.length_cons] at h2
        refine ⟨h1, by omega, fun hik => ?_⟩
        have e3 : k + 1 - (i + 1) = k - i := by omega
        have e4 : k + 2 - (i + 1) = k - i + 1 := by omega
        rw [e3, e4]
        by_cases hk : i ≤ k
        · have e1 : k + 1 - i = (k - i) + 1 := by omega
          have e2 : k + 2 - i = (k + 1 - i) + 1 := by omega
          rw [e2, e1, List.getD_cons_succ, List.getD_cons_succ] at h3
          exact h3 (by omega)
        · exact absurd hik (by omega)

/-! ### Claim theorems -/

/-- Claim C1: for every (category, id) pair present in `CMD_LABELS`, `extract_command` on a payload `[0x00, seq, 0x00, category, id, ...]` (at least 5 bytes, continuation bit of the first byte clear) returns a command-start classification carrying the table label and the key `(category, id)`; for pairs absent from the table it returns a command start with the synthesized numeric label `CMD_<cat>_<id>` instead of failing. -/
theorem c1_command_start_labels (seq cat id : Nat) (rest : List Nat)
    (hcat : cat < 256) (hid : id < 256) :
    (∀ lbl, CMD_LABELS.lookup (cat, id) = some lbl →
      extract_command (0x00 :: seq :: 0x00 :: cat :: id :: rest) =
        ⟨lbl, false, some (cat, id), "[0x" ++ hex2 0x00 ++ " 0x" ++ hex2 seq ++ "]"⟩) ∧
    (CMD_LABELS.lookup (cat, id) = none →
      extract_command (0x00 :: seq :: 0x00 :: cat :: id :: rest) =
        ⟨"CMD_" ++ hex2 cat ++ "_" ++ hex2 id, false, some (cat, id),
          "[0x" ++ hex2 0x00 ++ " 0x" ++ hex2 seq ++ "]"⟩) := by
  constructor
  · intro lbl hl
    unfold extract_command
    rw [if_neg (by simp)]
    simp only [List.getD, List.drop, List.length_cons]
    rw [if_neg (by simp), if_pos (by simp)]
    simp [hl]
  · intro hl
    unfold extract_command
    rw [if_neg (by simp)]
    simp only [List.getD, List.drop, List.length_cons]
    rw [if_neg (by simp), if_pos (by simp)]
    simp [hl]

/-- Witness for C1 at the table pair (0x01, 0x40) = "HANDSHAKE" and the absent pair (0x03, 0x04). -/
theorem c1_command_start_labels_witness :
    extract_command [0x00, 0x05, 0x00, 0x01, 0x40, 0x99]
      = ⟨"HANDSHAKE", false, some (0x01, 0x40),
          "[0x" ++ hex2 0x00 ++ " 0x" ++ hex2 0x05 ++ "]"⟩ ∧
    extract_command [0x00, 0x05, 0x00, 0x03, 0x04]
      = ⟨"CMD_" ++ hex2 0x03 ++ "_" ++ hex2 0x04, false, some (0x03, 0x04),
          "[0x" ++ hex2 0x00 ++ " 0x" ++ hex2 0x05 ++ "]"⟩ :=
  ⟨(c1_command_start_labels 0x05 0x01 0x40 [0x99] (by decide) (by decide)).1 "HANDSHAKE" (by decide),
   (c1_command_start_labels 0x05 0x03 0x04 [] (by decide) (by decide)).2 (by decide)⟩

/-- Counterexample to claim C2 as stated: `c2_cex` (39 bytes) has a structurally valid, in-range coordinate block at index 5 -- the first and only marker occurrence -- yet `parse_ble_notification` returns `none`; and `c2_cex_late` (40 bytes, collar-marked) has its only valid coordinate block at index 25 = length - 15, just past the scan bound, and also yields `none`. -/
theorem c2_counterexample :
    coord_candidate_valid c2_cex 5 = true ∧
    (List.range c2_cex.length).find? (coord_candidate_valid c2_cex) = some 5 ∧
    parse_ble_notification c2_cex = none ∧
    coord_candidate_valid c2_cex_late 25 = true ∧
    c2_cex_late.length - 15 = 25 ∧
    is_collar c2_cex_late = true ∧
    40 ≤ c2_cex_late.length ∧
    parse_ble_notification c2_cex_late = none := by
  refine ⟨?_, ?_, by decide, ?_, by decide, by decide, by decide, by decide⟩
  · rw [coord_candidate_valid_eq]; decide
  · rw [coord_candidate_valid_eq]; decide
  · rw [coord_candidate_valid_eq]; decide

/-- Claim C2 (amended): for every payload that passes the length and collar preconditions, `parse_ble_notification` returns the decoded block of the first index `j < length - 15` whose candidate is structurally valid and in range (failed candidates continue the scan), and `none` when no such candidate validates. -/
theorem c2_first_valid_scan (data : List Nat) (h40 : 40 ≤ data.length)
    (hc : is_collar data = true) :
    parse_ble_notification data =
      ((List.range (data.length - 15)).find? (coord_candidate_valid data)).bind
        (coord_block_at data) := by
  unfold parse_ble_notification
  rw [if_neg (by omega), if_neg (by simp [hc]), scan_coords_eq_find,
    List.range_eq_range']

/-- Witness for the amended C2 at the concrete collar payload `c2_cex_late`. -/
theorem c2_first_valid_scan_witness :
    parse_ble_notification c2_cex_late =
      ((List.range (c2_cex_late.length - 15)).find?
        (coord_candidate_valid c2_cex_late)).bind (coord_block_at c2_cex_late) :=
  c2_first_valid_scan c2_cex_late (by decide) (by decide)

/-- Claim C3: for chronologically non-decreasing packets, two consecutive packets fall in different sessions iff their integer microsecond timestamps differ by more than 30 seconds; the example timestamps [0, 1000000, 40000000, 41000000] split into exactly the sessions (0,1) and (2,3). -/
theorem c3_session_gap_iff :
    (∀ (packets : List Packet),
      (∀ m, m < packets.length - 1 →
        (packets.getD m default).ts_us ≤ (packets.getD (m + 1) default).ts_us) →
      ∀ k, k + 1 < packets.length →
        (same_session (detect_sessions packets) k (k + 1) = false ↔
          30000000 < ((packets.getD (k + 1) default).ts_us : ℤ)
            - ((packets.getD k default).ts_us : ℤ))) ∧
    detect_sessions c3_packets = [(0, 1), (2, 3)] := by
  constructor
  · intro packets _ k hk
    cases packets with
    | nil => simp at hk
    | cons p ps =>
      have hds : detect_sessions (p :: ps)
          = detect_sessions_go p.ts_us (ps.map Packet.ts_us) 0 1 := by
        simp [detect_sessions]
      rw [hds]
      have hb := detect_go_boundary (ps.map Packet.ts_us) p.ts_us 0 1 k (by omega)
      simp only [List.length_cons] at hk
      have hmap : p.ts_us :: ps.map Packet.ts_us = (p :: ps).map Packet.ts_us := rfl
      rw [hmap] at hb
      have hget1 : ((p :: ps).map Packet.ts_us).getD (k + 1 - 1) 0
          = ((p :: ps).getD k default).ts_us := by
        rw [show k + 1 - 1 = k from rfl]
        rw [show (0 : Nat) = Packet.ts_us default from rfl]
        exact List.getD_map _ _ _
      have hget2 : ((p :: ps).map Packet.ts_us).getD (k + 2 - 1) 0
          = ((p :: ps).getD (k + 1) default).ts_us := by
        rw [show k + 2 - 1 = k + 1 by omega]
        rw [show (0 : Nat) = Packet.ts_us default from rfl]
        exact List.getD_map _ _ _
      rw [hget1, hget2] at hb
      constructor
      · intro hfalse
        have hnot : ¬ (same_session (detect_sessions_go p.ts_us
            (ps.map Packet.ts_us) 0 1) k (k + 1) = true) := by
          rw [hfalse]; simp
        rw [hb] at hnot
        push_neg at hnot
        have hgap := (hnot (by omega) (by simp [List.length_map]; omega)).2
        rw [← gap_over_iff]
        rcases hval : gap_over ((p :: ps).getD k default).ts_us
            ((p :: ps).getD (k + 1) default).ts_us with _ | _
        · exact absurd hval hgap
        · rfl
      · intro hgap
        have hgap' := (gap_over_iff _ _).mpr hgap
        rcases hval : same_session (detect_sessions_go p.ts_us
            (ps.map Packet.ts_us) 0 1) k (k + 1) with _ | _
        · rfl
        · exfalso
          have := (hb.mp hval).2.2 (by omega)
          rw [hgap'] at this
          simp at this
  · simp [detect_sessions, c3_packets, mk_packet, detect_sessions_go, gap_over_eq]

/-- Witness for C3: packets 1 and 2 of the example are in different sessions. -/
theorem c3_session_gap_iff_witness :
    same_session (detect_sessions c3_packets) 1 2 = false :=
  (c3_session_gap_iff.1 c3_packets (by decide) 1 (by decide)).mpr (by decide)

/-- Claim C4: encoding any `v < 2^35` with the groups-of-7-bits scheme and decoding with `decode_varint` at offset 0 yields `v` back, consuming exactly the encoded length. -/
theorem c4_varint_roundtrip (v : Nat) (h : v < 2 ^ 35) :
    decode_varint (encode_varint v) 0 = (v, (encode_varint v).length) := by
  have h2 := decode_encode_go v 0 0 0 (by norm_num)
  unfold decode_varint
  rw [List.drop_zero, h2]
  simp

/-- Witness for C4 at v = 300. -/
theorem c4_varint_roundtrip_witness :
    decode_varint (encode_varint 300) 0 = (300, (encode_varint 300).length) :=
  c4_varint_roundtrip 300 (by norm_num)

/-- Claim C5: for every signed 32-bit `v`, `decode_sint32` inverts the zig-zag encoding of `v`. -/
theorem c5_zigzag_roundtrip (v : Int) (h1 : -(2 ^ 31) ≤ v) (h2 : v < 2 ^ 31) :
    decode_sint32 (encode_zigzag v) = v := by
  rw [decode_sint32_eq]
  unfold encode_zigzag
  by_cases hv : 0 ≤ v
  · rw [if_pos hv]
    have he : (2 * v).toNat % 2 = 0 := by omega
    rw [if_pos he]
    omega
  · rw [if_neg hv]
    have he : (-2 * v - 1).toNat % 2 = 1 := by omega
    rw [if_neg (by omega)]
    omega

/-- Witness for C5 at v = -5. -/
theorem c5_zigzag_roundtrip_witness :
    -(2 ^ 31) ≤ (-5 : ℤ) ∧ (-5 : ℤ) < 2 ^ 31 ∧
    decode_sint32 (encode_zigzag (-5)) = -5 :=
  ⟨by norm_num, by norm_num, c5_zigzag_roundtrip (-5) (by norm_num) (by norm_num)⟩

/-- Claim C6: `detect_sessions` returns an ordered list of disjoint, gap-free index ranges covering the whole input (each packet index lies in exactly one session, no session index exceeds the input, consecutive ranges are adjacent); empty input yields no sessions and a single packet yields the trivial session (0, 0). -/
theorem c6_sessions_partition (packets : List Packet) :
    (packets = [] → detect_sessions packets = []) ∧
    (packets.length = 1 → detect_sessions packets = [(0, 0)]) ∧
    (∀ k, k < packets.length →
      ((detect_sessions packets).countP fun se => contains_idx se k) = 1) ∧
    (∀ k, packets.length ≤ k →
      ((detect_sessions packets).countP fun se => contains_idx se k) = 0) ∧
    List.Chain' (fun a b => b.1 = a.2 + 1) (detect_sessions packets) ∧
    (∀ se ∈ detect_sessions packets, se.1 ≤ se.2) ∧
    (packets ≠ [] →
      (detect_sessions packets).head?.map Prod.fst = some 0 ∧
      (detect_sessions packets).getLast?.map Prod.snd
        = some (packets.length - 1)) := by
  cases packets with
  | nil =>
    refine ⟨fun _ => rfl, by simp, by simp, ?_, by simp [detect_sessions], by simp [detect_sessions], by simp⟩
    intro k _
    simp [detect_sessions]
  | cons p ps =>
    have hds : detect_sessions (p :: ps)
        = detect_sessions_go p.ts_us (ps.map Packet.ts_us) 0 1 := by
      simp [detect_sessions]
    obtain ⟨hh, hl, hc, hm⟩ :=
      detect_go_shape (ps.map Packet.ts_us) p.ts_us 0 1 (by omega)
    refine ⟨by simp, ?_, ?_, ?_, ?_, ?_, ?_⟩
    · intro hlen
      simp only [List.length_cons] at hlen
      have hps : ps = [] := by
        cases ps with
        | nil => rfl
        | cons q qs => simp at hlen
      subst hps
      simp [detect_sessions, detect_sessions_go]
    · intro k hk
      rw [hds, detect_go_count (ps.map Packet.ts_us) p.ts_us 0 1 k (by omega)]
      rw [if_pos]
      simp only [List.length_map]
      simp only [List.length_cons] at hk
      omega
    · intro k hk
      rw [hds, detect_go_count (ps.map Packet.ts_us) p.ts_us 0 1 k (by omega)]
      rw [if_neg]
      simp only [List.length_map]
      simp only [List.length_cons] at hk
      omega
    · rw [hds]; exact hc
    · rw [hds]; exact hm
    · intro _
      rw [hds]
      refine ⟨hh, ?_⟩
      rw [hl]
      simp

/-- Witness for C6 on the empty packet list. -/
theorem c6_sessions_partition_witness : detect_sessions ([] : List Packet) = [] :=
  (c6_sessions_partition []).1 rfl

/-- Claim C7: a capture whose file header is shorter than 16 bytes fails with the malformed-capture diagnostic and produces zero packets. -/
theorem c7_short_header (file : List Nat) (h : file.length < 16) :
    parse_btsnoop file = ⟨true, []⟩ := by
  unfold parse_btsnoop
  rw [if_pos]
  simp only [List.length_take]
  omega

/-- Witness for C7 on a 3-byte file. -/
theorem c7_short_header_witness :
    ([1, 2, 3] : List Nat).length < 16 ∧
    parse_btsnoop [1, 2, 3] = ⟨true, []⟩ :=
  ⟨by decide, c7_short_header [1, 2, 3] (by decide)⟩

/-- Claim C8: `semicircles_to_degrees` maps 2147483648 to exactly 180, -2147483648 to exactly -180 and 0 to exactly 0, computing `v * 180 / 2^31`. -/
theorem c8_semicircles_exact :
    semicircles_to_degrees 2147483648 = 180 ∧
    semicircles_to_degrees (-2147483648) = -180 ∧
    semicircles_to_degrees 0 = 0 ∧
    ∀ v : Int, semicircles_to_degrees v = (v : ℚ) * 180 / 2 ^ 31 := by
  refine ⟨by norm_num [semicircles_to_degrees],
    by norm_num [semicircles_to_degrees],
    by norm_num [semicircles_to_degrees], fun v => ?_⟩
  unfold semicircles_to_degrees
  norm_num
  ring

/-- Claim C9: `parse_ble_notification` returns `none` for every payload shorter than 40 bytes, and for every payload whose collar marker `02 35 01` starts at no index `i < min(length - 3, 20)` -- even if a valid coordinate block is present. -/
theorem c9_collar_preconditions (data : List Nat) :
    (data.length < 40 → parse_ble_notification data = none) ∧
    ((∀ i, i < min (data.length - 3) 20 → collar_marker_at data i = false) →
      parse_ble_notification data = none) := by
  constructor
  · intro h
    unfold parse_ble_notification
    rw [if_pos h]
  · intro h
    unfold parse_ble_notification
    by_cases h40 : data.length < 40
    · rw [if_pos h40]
    · rw [if_neg h40, if_pos]
      rw [Bool.not_eq_true, is_collar, List.any_eq_false]
      intro i hi
      rw [List.mem_range] at hi
      have hfalse := h i hi
      rw [collar_marker_at] at hfalse
      simp only [Bool.and_eq_true, beq_iff_eq, not_and]
      intro h1 h2
      have htrue : (data.getD i 0 == 0x02 && data.getD (i + 1) 0 == DEVICE_COLLAR &&
          data.getD (i + 2) 0 == 0x01) = true := by
        simp only [Bool.and_eq_true, beq_iff_eq]
        exact ⟨h1, h2⟩
      rw [hfalse] at htrue
      exact Bool.false_ne_true htrue

/-- Witness for C9 on 40 zero bytes (no collar marker). -/
theorem c9_collar_preconditions_witness :
    (∀ i, i < min ((List.replicate 40 0).length - 3) 20 →
      collar_marker_at (List.replicate 40 0) i = false) ∧
    parse_ble_notification (List.replicate 40 0) = none :=
  ⟨by decide, (c9_collar_preconditions (List.replicate 40 0)).2 (by decide)⟩

/-- Claim C10: the coordinate scan only examines marker positions `j < length - 15`; a payload whose marker occurrences all start at `length - 15` or later yields no Position even if the block there is valid. -/
theorem c10_scan_bound (data : List Nat)
    (h : ∀ j, j < data.length - 15 → marker_at data j = false) :
    parse_ble_notification data = none := by
  unfold parse_ble_notification
  split_ifs with h1 h2
  · rfl
  · rw [scan_coords_eq_find]
    have hn : (List.range' 0 (data.length - 15)).find?
        (coord_candidate_valid data) = none := by
      rw [List.find?_eq_none]
      intro x hx
      have hxlt : x < data.length - 15 := by
        have := List.mem_range'_1.mp hx
        omega
      simp [coord_candidate_valid, h x hxlt]
    rw [hn]
    rfl
  · rfl

/-- Witness for C10: `c2_cex_late` has its only (valid) marker at index 25 = length - 15 and parses to `none`. -/
theorem c10_scan_bound_witness :
    (∀ j, j < c2_cex_late.length - 15 → marker_at c2_cex_late j = false) ∧
    parse_ble_notification c2_cex_late = none :=
  ⟨by decide, c10_scan_bound c2_cex_late (by decide)⟩

end GdogTAK